import Mathlib

/-!
Verification of the multi-factor credential-derivation core of the
nfc-github-2-factor repository, as a shallow embedding in Lean 4.

Each Python function relevant to the checked claims is translated into an
executable Lean definition.  External library primitives (hashlib digests,
PBKDF2, Fernet authenticated encryption, the RSA generator of the
cryptography package) are modelled as explicit parameters; idealised
properties of those primitives (injectivity of a digest, soundness of
authenticated encryption) appear only as named hypotheses of theorems, and
every such hypothesis is discharged on a concrete instantiation in the
accompanying witness theorems.
-/

namespace NfcGithub

/-! ## Chaos Vault (src/nesdr_chaos_generator.py, class NESDRChaosGenerator)

A chaos value is a byte string (list of byte values).  The generator object
state consists of the in-memory list `chaos_values` and the hidden vault
file `.chaos_vault`; the file holds a pickled record with fields
timestamp, count and values, modelled by `VaultFile`.  Persistence can fail
(the source catches the exception and returns False), so `save_vault` takes
a `writeOk` flag describing whether the write succeeds. -/

/-- One chaos value: a 4-byte string produced by the PBKDF2 step. -/
abbrev ChaosVal := List Nat

/-- The pickled content of the hidden vault file `.chaos_vault`:
fields timestamp, count, values written by `save_vault`. -/
structure VaultFile where
  timestamp : Nat
  count : Nat
  values : List ChaosVal
deriving DecidableEq

/-- State of a `NESDRChaosGenerator`: the in-memory `chaos_values` list and
the persisted vault file (none when no file exists yet). -/
structure VaultState where
  chaosValues : List ChaosVal
  stored : Option VaultFile
deriving DecidableEq

/-- `NESDRChaosGenerator.save_vault` (nesdr_chaos_generator.py lines
120-137): serialises `{timestamp, count, values}` from the in-memory list
into the vault file and returns True; when the write raises, the exception
is caught, the file is left as it was, and False is returned.  `now` is the
value of `time.time()` and `writeOk` tells whether the write succeeds. -/
def save_vault (s : VaultState) (now : Nat) (writeOk : Bool) : VaultState × Bool :=
  if writeOk then
    ({ s with stored := some ⟨now, s.chaosValues.length, s.chaosValues⟩ }, true)
  else
    (s, false)

/-- `NESDRChaosGenerator.get_next_value` (lines 163-178): with an empty
in-memory list it returns None; otherwise it pops the FIRST element
(`self.chaos_values.pop(0)`), calls `save_vault` — discarding its boolean
result — and returns the popped value. -/
def get_next_value (s : VaultState) (now : Nat) (writeOk : Bool) :
    Option ChaosVal × VaultState :=
  match s.chaosValues with
  | [] => (none, s)
  | v :: rest =>
      let s1 : VaultState := { s with chaosValues := rest }
      let s2 := (save_vault s1 now writeOk).1
      (some v, s2)

/-- `NESDRChaosGenerator.generate_chaos_value` (lines 79-118): the entropy
pool concatenated over the five scanned frequencies is checked for length
(< 64 bytes means failure, nothing is stored); otherwise a 4-byte value is
derived by PBKDF2 (modelled by the parameter `kdf`) and APPENDED to the end
of the in-memory list.  The vault file is not written here (the caller
saves afterwards). -/
def generate_chaos_value (kdf : List Nat → ChaosVal) (s : VaultState)
    (entropyPool : List Nat) : Bool × VaultState :=
  if entropyPool.length < 64 then
    (false, s)
  else
    (true, { s with chaosValues := s.chaosValues ++ [kdf entropyPool] })

/-- Run `get_next_value` a fixed number of times, collecting the results. -/
def consumeRun (now : Nat) (writeOk : Bool) : VaultState → Nat →
    List (Option ChaosVal) × VaultState
  | s, 0 => ([], s)
  | s, Nat.succ k =>
      let (r, s1) := get_next_value s now writeOk
      let (rs, s2) := consumeRun now writeOk s1 k
      (r :: rs, s2)

/-- An interleaving step for the vault: either one `generate_chaos_value`
call (with the entropy pool that call happens to collect) or one
`get_next_value` call. -/
inductive VaultOp where
  | genOp (entropyPool : List Nat)
  | consumeOp
deriving DecidableEq

/-- Run an arbitrary interleaving of generate and consume operations,
returning the list of values appended by successful generates, the list of
values handed out by successful consumes, and the final state. -/
def runOps (kdf : List Nat → ChaosVal) (now : Nat) (writeOk : Bool) :
    VaultState → List VaultOp → List ChaosVal × List ChaosVal × VaultState
  | s, [] => ([], [], s)
  | s, VaultOp.genOp e :: rest =>
      let (ok, s1) := generate_chaos_value kdf s e
      let (g, c, sf) := runOps kdf now writeOk s1 rest
      ((if ok then [kdf e] else []) ++ g, c, sf)
  | s, VaultOp.consumeOp :: rest =>
      let (r, s1) := get_next_value s now writeOk
      let (g, c, sf) := runOps kdf now writeOk s1 rest
      (g, (match r with | some v => [v] | none => []) ++ c, sf)

/-- Helper invariant for the FIFO property: over any interleaving starting
from state `s`, the consumed values followed by the values left in memory
equal the initial in-memory values followed by the generated values. -/
theorem runOps_consumed_append (kdf : List Nat → ChaosVal) (now : Nat)
    (writeOk : Bool) (ops : List VaultOp) :
    ∀ s : VaultState,
      (runOps kdf now writeOk s ops).2.1 ++
        (runOps kdf now writeOk s ops).2.2.chaosValues =
      s.chaosValues ++ (runOps kdf now writeOk s ops).1 := by
  induction ops with
  | nil => intro s; simp [runOps]
  | cons op rest ih =>
      intro s
      cases op with
      | genOp e =>
          by_cases hlen : e.length < 64
          · simp [runOps, generate_chaos_value, hlen, ih]
          · simp [runOps, generate_chaos_value, hlen, ih]
      | consumeOp =>
          cases hcv : s.chaosValues with
          | nil =>
              have h := ih s
              simp [runOps, get_next_value, hcv] at h ⊢
              simpa [hcv] using h
          | cons v tl =>
              have h := ih { chaosValues := tl,
                             stored := ((save_vault { s with chaosValues := tl } now writeOk).1).stored }
              simp [runOps, get_next_value, hcv, save_vault] at h ⊢
              by_cases hw : writeOk = true
              · simp [hw] at h ⊢; rw [h]
              · simp [hw] at h ⊢; rw [h]

/-- The state left behind by `save_vault`, written out explicitly. -/
theorem save_vault_fst (s : VaultState) (now : Nat) (writeOk : Bool) :
    (save_vault s now writeOk).1 =
      ⟨s.chaosValues,
       if writeOk then some ⟨now, s.chaosValues.length, s.chaosValues⟩
       else s.stored⟩ := by
  cases s; cases writeOk <;> simp [save_vault]

/-- C2: for every vault holding N chaos values, N consecutive
`get_next_value` calls return exactly the N stored values (each handed out
once, removed from the in-memory store), and the (N+1)-th call returns
None; afterwards the in-memory store is empty. -/
theorem C2_single_use (l : List ChaosVal) (st : Option VaultFile)
    (now : Nat) (writeOk : Bool) :
    (consumeRun now writeOk ⟨l, st⟩ (l.length + 1)).1 = l.map some ++ [none] ∧
    (consumeRun now writeOk ⟨l, st⟩ (l.length + 1)).2.chaosValues = [] := by
  induction l generalizing st with
  | nil => simp [consumeRun, get_next_value]
  | cons v tl ih =>
      constructor
      · have h1 := (ih (if writeOk then some ⟨now, tl.length, tl⟩ else st)).1
        simp only [consumeRun, get_next_value, List.length_cons, save_vault_fst] at h1 ⊢
        simpa using h1
      · have h2 := (ih (if writeOk then some ⟨now, tl.length, tl⟩ else st)).2
        simp only [consumeRun, get_next_value, List.length_cons, save_vault_fst] at h2 ⊢
        simpa using h2

/-- C3 counterexample: a concrete vault with one stored value, on a
`get_next_value` call whose persistence step fails (`writeOk = false`,
`save_vault` reports False and leaves the old file in place), still returns
the popped value to the caller — the source discards the result of
`save_vault`, so consumption is not fail-closed. -/
theorem C3_counterexample :
    (save_vault ⟨[], some ⟨0, 1, [[1, 2, 3, 4]]⟩⟩ 5 false).2 = false ∧
    (save_vault ⟨[], some ⟨0, 1, [[1, 2, 3, 4]]⟩⟩ 5 false).1.stored =
      some ⟨0, 1, [[1, 2, 3, 4]]⟩ ∧
    (get_next_value ⟨[[1, 2, 3, 4]], some ⟨0, 1, [[1, 2, 3, 4]]⟩⟩ 5 false).1 =
      some [1, 2, 3, 4] := by
  refine ⟨rfl, rfl, rfl⟩

/-- C3 amended: `get_next_value` pops the in-memory list and calls
`save_vault` (which re-serialises the full remaining list) before the value
reaches the caller, but the save result is ignored: the popped value is
returned whether or not persistence succeeded, and on a failed write the
vault file keeps its previous content. -/
theorem C3_amended (s : VaultState) (now : Nat) (writeOk : Bool)
    (v : ChaosVal) (rest : List ChaosVal) (h : s.chaosValues = v :: rest) :
    get_next_value s now writeOk =
      (some v,
       ⟨rest, if writeOk then some ⟨now, rest.length, rest⟩ else s.stored⟩) := by
  cases s with
  | mk cv st =>
      simp only at h
      subst h
      by_cases hw : writeOk = true
      · simp [get_next_value, save_vault, hw]
      · simp [get_next_value, save_vault, hw]

/-- C3 amended, witness: the amended characterisation evaluated on the
concrete failing-persistence vault of the counterexample scenario. -/
theorem C3_amended_witness :
    get_next_value ⟨[[9, 9, 9, 9], [1, 1, 1, 1]], none⟩ 7 false =
      (some [9, 9, 9, 9], ⟨[[1, 1, 1, 1]], none⟩) := by
  have h := C3_amended ⟨[[9, 9, 9, 9], [1, 1, 1, 1]], none⟩ 7 false
    [9, 9, 9, 9] [[1, 1, 1, 1]] rfl
  simpa using h

/-- C10: vault consumption is FIFO.  Over every interleaving of generate
and consume operations starting from an empty vault, the successfully
consumed values followed by the values still in memory equal the list of
generated values in generation order; in particular the consumed sequence
is the prefix of the generated sequence, so the k-th successfully consumed
value is the k-th value ever generated. -/
theorem C10_fifo (kdf : List Nat → ChaosVal) (now : Nat) (writeOk : Bool)
    (ops : List VaultOp) :
    (runOps kdf now writeOk ⟨[], none⟩ ops).2.1 ++
      (runOps kdf now writeOk ⟨[], none⟩ ops).2.2.chaosValues =
      (runOps kdf now writeOk ⟨[], none⟩ ops).1 ∧
    (runOps kdf now writeOk ⟨[], none⟩ ops).2.1 =
      (runOps kdf now writeOk ⟨[], none⟩ ops).1.take
        (runOps kdf now writeOk ⟨[], none⟩ ops).2.1.length := by
  have h := runOps_consumed_append kdf now writeOk ops ⟨[], none⟩
  simp only [List.nil_append] at h
  refine ⟨h, ?_⟩
  rw [← h, List.take_left]

/-! ## Integrity / Fraud Detector (src/usb_fraud_detection.py)

`calculate_pack_integrity` canonicalises the parsed pack via
`json.dumps(pack_data, sort_keys=True, separators=(",", ":"))`, hashes it
with two digests plus a length, and combines them into a composite
signature; `verify_pack_integrity` re-loads the pack file with
`json.load`, recomputes, and requires all four comparisons to match.

The JSON layer is embedded for the fragment these packs use (objects,
arrays, unescaped strings, integers, true/false/null, RFC whitespace):
`json_load` parses the persisted byte string — whitespace between tokens is
insignificant, exactly as in Python — and `canon` reproduces the canonical
dump.  The hashlib digests are external library primitives and appear as
the parameter structure `PackHashes`. -/

/-- Parsed JSON value (the fragment used by the authentication packs). -/
inductive JValue where
  | jnull
  | jbool (b : Bool)
  | jnum (n : Int)
  | jstr (s : String)
  | jarr (xs : List JValue)
  | jobj (fields : List (String × JValue))

/-- JSON insignificant whitespace: space, tab, line feed, carriage return. -/
def isWsChar (c : Char) : Bool :=
  c.toNat = 32 || c.toNat = 9 || c.toNat = 10 || c.toNat = 13

/-- Drop insignificant whitespace before the next token. -/
def skipWs (cs : List Char) : List Char := cs.dropWhile isWsChar

/-- Read a string body up to the closing quote (the fragment has no escape
sequences: a backslash makes the parse fail). -/
def parseStringBody : List Char → Option (String × List Char)
  | [] => none
  | c :: rest =>
      if c.toNat = 34 then some ("", rest)
      else if c.toNat = 92 then none
      else
        match parseStringBody rest with
        | some (s, r) => some (String.mk (c :: s.data), r)
        | none => none

/-- Numeric value of a decimal digit character. -/
def digitVal (c : Char) : Option Nat :=
  if 48 ≤ c.toNat ∧ c.toNat ≤ 57 then some (c.toNat - 48) else none

/-- Split a leading run of decimal digits from the input. -/
def takeDigits : List Char → List Nat × List Char
  | [] => ([], [])
  | c :: rest =>
      match digitVal c with
      | some d =>
          let (ds, r) := takeDigits rest
          (d :: ds, r)
      | none => ([], c :: rest)

/-- Decimal digits to a natural number. -/
def digitsToNat (ds : List Nat) : Nat := ds.foldl (fun a d => a * 10 + d) 0

/-- Parse an integer literal (optional minus, then digits). -/
def parseNumber : List Char → Option (Int × List Char)
  | [] => none
  | c :: rest =>
      if c.toNat = 45 then
        let (ds, r) := takeDigits rest
        if ds.isEmpty then none else some (-(digitsToNat ds : Int), r)
      else
        let (ds, r) := takeDigits (c :: rest)
        if ds.isEmpty then none else some ((digitsToNat ds : Int), r)

/-- Consume an expected literal tail (the rest of true/false/null). -/
def dropLit : List Char → List Char → Option (List Char)
  | [], cs => some cs
  | _ :: _, [] => none
  | l :: ls, c :: cs => if l = c then dropLit ls cs else none

/-- Python dict update used by the object parser: a repeated key keeps its
first position but takes the last value, as in `json.loads`. -/
def updateField : List (String × JValue) → String → JValue →
    List (String × JValue)
  | [], k, v => [(k, v)]
  | (k1, v1) :: rest, k, v =>
      if k1 = k then (k1, v) :: rest else (k1, v1) :: updateField rest k v

/-- Fold parsed members into a Python dict. -/
def dedupFields (ms : List (String × JValue)) : List (String × JValue) :=
  ms.foldl (fun acc kv => updateField acc kv.1 kv.2) []

mutual

/-- Parse one JSON value; `fuel` bounds the nesting depth (one unit per
recursion level, so input length plus one always suffices). -/
def parseVal : Nat → List Char → Option (JValue × List Char)
  | 0, _ => none
  | Nat.succ fuel, cs =>
      match skipWs cs with
      | [] => none
      | c :: rest =>
          if c.toNat = 123 then parseObjBody fuel rest
          else if c.toNat = 91 then parseArrBody fuel rest
          else if c.toNat = 34 then
            match parseStringBody rest with
            | some (s, r) => some (JValue.jstr s, r)
            | none => none
          else if c.toNat = 116 then
            match dropLit "rue".data rest with
            | some r => some (JValue.jbool true, r)
            | none => none
          else if c.toNat = 102 then
            match dropLit "alse".data rest with
            | some r => some (JValue.jbool false, r)
            | none => none
          else if c.toNat = 110 then
            match dropLit "ull".data rest with
            | some r => some (JValue.jnull, r)
            | none => none
          else
            match parseNumber (c :: rest) with
            | some (n, r) => some (JValue.jnum n, r)
            | none => none

/-- Parse an object body, the opening brace already consumed. -/
def parseObjBody : Nat → List Char → Option (JValue × List Char)
  | 0, _ => none
  | Nat.succ fuel, cs =>
      match skipWs cs with
      | [] => none
      | c :: rest =>
          if c.toNat = 125 then some (JValue.jobj [], rest)
          else
            match parseMembers fuel (c :: rest) with
            | some (ms, r) => some (JValue.jobj (dedupFields ms), r)
            | none => none

/-- Parse the members of a non-empty object up to the closing brace. -/
def parseMembers : Nat → List Char →
    Option (List (String × JValue) × List Char)
  | 0, _ => none
  | Nat.succ fuel, cs =>
      match skipWs cs with
      | [] => none
      | c :: rest =>
          if c.toNat = 34 then
            match parseStringBody rest with
            | some (k, r1) =>
                match skipWs r1 with
                | [] => none
                | c2 :: r2 =>
                    if c2.toNat = 58 then
                      match parseVal fuel r2 with
                      | some (v, r3) =>
                          match skipWs r3 with
                          | [] => none
                          | c3 :: r4 =>
                              if c3.toNat = 44 then
                                match parseMembers fuel r4 with
                                | some (ms, r5) => some ((k, v) :: ms, r5)
                                | none => none
                              else if c3.toNat = 125 then some ([(k, v)], r4)
                              else none
                      | none => none
                    else none
            | none => none
          else none

/-- Parse an array body, the opening bracket already consumed. -/
def parseArrBody : Nat → List Char → Option (JValue × List Char)
  | 0, _ => none
  | Nat.succ fuel, cs =>
      match skipWs cs with
      | [] => none
      | c :: rest =>
          if c.toNat = 93 then some (JValue.jarr [], rest)
          else
            match parseItems fuel (c :: rest) with
            | some (xs, r) => some (JValue.jarr xs, r)
            | none => none

/-- Parse the elements of a non-empty array up to the closing bracket. -/
def parseItems : Nat → List Char → Option (List JValue × List Char)
  | 0, _ => none
  | Nat.succ fuel, cs =>
      match parseVal fuel cs with
      | some (v, r1) =>
          match skipWs r1 with
          | [] => none
          | c2 :: r2 =>
              if c2.toNat = 44 then
                match parseItems fuel r2 with
                | some (xs, r3) => some (v :: xs, r3)
                | none => none
              else if c2.toNat = 93 then some ([v], r2)
              else none
      | none => none

end

/-- `json.load` on the persisted file content: parse one value and require
only whitespace to remain. -/
def json_load (cs : List Char) : Option JValue :=
  match parseVal (cs.length + 1) cs with
  | some (v, r) => if (skipWs r).isEmpty then some v else none
  | none => none

/-- Lexicographic order on the character data of the keys, as Python
compares strings when sorting dict items. -/
def charListLe : List Char → List Char → Bool
  | [], _ => true
  | _ :: _, [] => false
  | a :: as, b :: bs =>
      if a.toNat < b.toNat then true
      else if b.toNat < a.toNat then false
      else charListLe as bs

/-- Insert one rendered key/value pair into a key-sorted list. -/
def insertPair (p : String × String) : List (String × String) →
    List (String × String)
  | [] => [p]
  | q :: qs =>
      if charListLe p.1.data q.1.data then p :: q :: qs else q :: insertPair p qs

/-- Sort rendered key/value pairs by key (`sort_keys=True`). -/
def sortPairs (ps : List (String × String)) : List (String × String) :=
  ps.foldr insertPair []

/-- Join rendered object members with the compact separators
`separators=(",", ":")`. -/
def canonFieldsStr : List (String × String) → String
  | [] => ""
  | [(k, v)] => String.mk (Char.ofNat 34 :: k.data ++ [Char.ofNat 34]) ++ ":" ++ v
  | (k, v) :: q :: rest =>
      String.mk (Char.ofNat 34 :: k.data ++ [Char.ofNat 34]) ++ ":" ++ v ++ "," ++
        canonFieldsStr (q :: rest)

/-- Join rendered array elements with the compact item separator. -/
def canonListStr : List String → String
  | [] => ""
  | [x] => x
  | x :: y :: rest => x ++ "," ++ canonListStr (y :: rest)

mutual

/-- Canonical serialisation of a parsed pack:
`json.dumps(pack_data, sort_keys=True, separators=(",", ":"))`. -/
def canon : JValue → String
  | JValue.jnull => "null"
  | JValue.jbool true => "true"
  | JValue.jbool false => "false"
  | JValue.jnum n => toString n
  | JValue.jstr s => String.mk (Char.ofNat 34 :: s.data ++ [Char.ofNat 34])
  | JValue.jarr xs => "[" ++ canonListStr (canonList xs) ++ "]"
  | JValue.jobj fs =>
      String.mk [Char.ofNat 123] ++ canonFieldsStr (sortPairs (canonFields fs)) ++
        String.mk [Char.ofNat 125]

/-- Render each array element. -/
def canonList : List JValue → List String
  | [] => []
  | x :: rest => canon x :: canonList rest

/-- Render each object value, keeping the key for the later sort. -/
def canonFields : List (String × JValue) → List (String × String)
  | [] => []
  | (k, v) :: rest => (k, canon v) :: canonFields rest

end

/-- The hashlib digests used by the fraud detector, as abstract
parameters (sha256 and sha512 hexdigests of the canonical pack string, and
the blake2b hexdigest for the composite signature). -/
structure PackHashes where
  sha256 : String → String
  sha512 : String → String
  blake2b : String → String

/-- First value for a key in a parsed object. -/
def lookupField : List (String × JValue) → String → Option JValue
  | [], _ => none
  | (k, v) :: rest, key => if k = key then some v else lookupField rest key

/-- `pack_data.get("pack_metadata", dict()).get("creation_time", 0)` —
packs store a numeric creation time; a missing field defaults to 0. -/
def getCreationTime : JValue → Int
  | JValue.jobj fs =>
      match lookupField fs "pack_metadata" with
      | some (JValue.jobj ms) =>
          match lookupField ms "creation_time" with
          | some (JValue.jnum n) => n
          | _ => 0
      | _ => 0
  | _ => 0

/-- The integrity record written next to the pack
(`USBFraudDetector.calculate_pack_integrity`, lines 58-88).  The version
and fraud-detection marker fields are string constants; `creationTime` is
the `time.time()` of record creation and is not compared by
verification. -/
structure IntegrityRecord where
  packSha256 : String
  packSha512 : String
  packSize : Nat
  compositeIntegrity : String
  creationTime : Nat
deriving DecidableEq

/-- `USBFraudDetector.calculate_pack_integrity` (lines 58-88): canonical
dump, two digests over it, then the blake2b composite over the two hex
digests, the serialised length and the pack creation time. -/
def calculate_pack_integrity (H : PackHashes) (packData : JValue)
    (now : Nat) : IntegrityRecord :=
  let packString := canon packData
  let sha256Hash := H.sha256 packString
  let sha512Hash := H.sha512 packString
  let compositeData :=
    sha256Hash ++ sha512Hash ++ toString packString.length ++
      toString (getCreationTime packData)
  { packSha256 := sha256Hash
    packSha512 := sha512Hash
    packSize := packString.length
    compositeIntegrity := H.blake2b compositeData
    creationTime := now }

/-- `USBFraudDetector.verify_pack_integrity` (lines 113-176), pack and
integrity files present: re-load the pack bytes with `json.load` (a parse
error is caught and reported as failure), recompute the integrity record
and require the sha256, sha512, size and composite comparisons to ALL
match; any single mismatch yields False. -/
def verify_pack_integrity (H : PackHashes) (now : Nat) (packFile : List Char)
    (storedIntegrity : IntegrityRecord) : Bool :=
  match json_load packFile with
  | none => false
  | some packData =>
      let current := calculate_pack_integrity H packData now
      decide (storedIntegrity.packSha256 = current.packSha256) &&
      decide (storedIntegrity.packSha512 = current.packSha512) &&
      decide (storedIntegrity.packSize = current.packSize) &&
      decide (storedIntegrity.compositeIntegrity = current.compositeIntegrity)

/-- Number of positions at which two equal-length byte strings differ. -/
def diffCount (a b : List Char) : Nat :=
  (a.zip b).countP (fun p => decide (p.1 ≠ p.2))

/-- A minimal persisted pack as `json.dump(..., indent=2)` lays it out:
the separator after the colon is a space. -/
def packBytes1 : List Char := "\x7b\"k\": 1\x7d".data

/-- The same persisted pack with exactly one byte flipped: the formatting
space after the colon became a tab (both are insignificant JSON
whitespace). -/
def packBytes2 : List Char := "\x7b\"k\":\t1\x7d".data

/-- The parsed content shared by both byte strings. -/
def packVal1 : JValue := JValue.jobj [("k", JValue.jnum 1)]

/-- A pack whose parsed content differs from `packVal1`. -/
def packBytes3 : List Char := "\x7b\"k\":2\x7d".data

/-- Concrete instantiation of the digest parameters (prefix tagging), used
to evaluate the integrity layer on explicit inputs. -/
def cPackHashes : PackHashes :=
  { sha256 := fun s => "A" ++ s
    sha512 := fun s => "B" ++ s
    blake2b := fun s => "C" ++ s }

/-- The concrete sha256 stand-in is injective. -/
theorem cPackHashes_sha256_inj : Function.Injective cPackHashes.sha256 := by
  intro a b h
  have h2 : ("A" ++ a).data = ("A" ++ b).data := congrArg String.data h
  simp [String.data_append] at h2
  cases a; cases b; simp_all

/-- C4 counterexample: flipping one byte of the persisted bundle — a
formatting space (written by `json.dump(..., indent=2)`) turned into a tab
— leaves `json.load` with the identical parsed pack, so verification
recomputes identical digests and reports the tampered file as VALID, not
TAMPERED. -/
theorem C4_counterexample :
    packBytes1 ≠ packBytes2 ∧
    packBytes1.length = packBytes2.length ∧
    diffCount packBytes1 packBytes2 = 1 ∧
    json_load packBytes1 = some packVal1 ∧
    json_load packBytes2 = some packVal1 ∧
    verify_pack_integrity cPackHashes 9 packBytes2
      (calculate_pack_integrity cPackHashes packVal1 7) = true := by
  have hc : canon packVal1 = "\x7b\"k\":1\x7d" := by
    simp [canon, canonFields, canonFieldsStr, sortPairs, packVal1]
    decide
  refine ⟨by decide, by decide, by decide, rfl, rfl, ?_⟩
  simp [verify_pack_integrity, calculate_pack_integrity, json_load, hc]
  decide

/-- C4 amended: a tampered persisted bundle fails verification exactly when
its parsed canonical content differs from the sealed pack (assuming the
digest is collision-free, modelled as injectivity): any such flip is
reported TAMPERED, while a flip that leaves the parsed content unchanged
(formatting whitespace) passes.  Moreover verification accepts only when
the parse succeeds and ALL FOUR stored quantities — sha256, sha512, length
and composite signature — exactly match the recomputation, so no partial
acceptance exists. -/
theorem C4_amended (H : PackHashes) (hinj : Function.Injective H.sha256)
    (pack : JValue) (tampered : List Char) (now1 now2 : Nat)
    (hchanged : ∀ p2, json_load tampered = some p2 → canon p2 ≠ canon pack) :
    verify_pack_integrity H now2 tampered
      (calculate_pack_integrity H pack now1) = false ∧
    ∀ (bytes : List Char) (stored : IntegrityRecord) (now3 : Nat),
      verify_pack_integrity H now3 bytes stored = true ↔
        ∃ p, json_load bytes = some p ∧
          stored.packSha256 = H.sha256 (canon p) ∧
          stored.packSha512 = H.sha512 (canon p) ∧
          stored.packSize = (canon p).length ∧
          stored.compositeIntegrity =
            H.blake2b (H.sha256 (canon p) ++ H.sha512 (canon p) ++
              toString (canon p).length ++ toString (getCreationTime p)) := by
  constructor
  · cases hl : json_load tampered with
    | none => simp [verify_pack_integrity, hl]
    | some p2 =>
        have hne : H.sha256 (canon pack) ≠ H.sha256 (canon p2) := by
          intro h
          exact hchanged p2 hl (hinj h.symm)
        simp [verify_pack_integrity, hl, calculate_pack_integrity, hne]
  · intro bytes stored now3
    cases hb : json_load bytes with
    | none => simp [verify_pack_integrity, hb]
    | some p =>
        simp [verify_pack_integrity, hb, calculate_pack_integrity]
        tauto

/-- C4 amended, witness: a one-byte flip that changes the parsed content
(the value 1 became 2) is rejected by verification, at the concrete digest
instantiation. -/
theorem C4_amended_witness :
    verify_pack_integrity cPackHashes 9 packBytes3
      (calculate_pack_integrity cPackHashes packVal1 7) = false := by
  have h := C4_amended cPackHashes cPackHashes_sha256_inj packVal1 packBytes3 7 9 ?_
  · exact h.1
  · intro p2 hp
    have hv : json_load packBytes3 = some (JValue.jobj [("k", JValue.jnum 2)]) := rfl
    rw [hv] at hp
    have hp2 : p2 = JValue.jobj [("k", JValue.jnum 2)] := (Option.some.inj hp).symm
    subst hp2
    have e1 : canon (JValue.jobj [("k", JValue.jnum 2)]) = "\x7b\"k\":2\x7d" := by
      simp [canon, canonFields, canonFieldsStr, sortPairs]
      decide
    have e2 : canon packVal1 = "\x7b\"k\":1\x7d" := by
      simp [canon, canonFields, canonFieldsStr, sortPairs, packVal1]
      decide
    rw [e1, e2]
    decide

/-! ## Hardware Fingerprinter (src/usb_hardware_binding.py and
src/usb_pack_ssh_keygen.py)

Both fingerprint functions hash the Python string
`str(sorted(d.items()))` of an attribute dict; `pyRepr`, `pyPairStr`,
`pyItemsStr` and `pySortedItems` reproduce that encoding (the attribute
values in these dicts are plain text, rendered by `repr` between single
quotes). -/

/-- Python `repr` of a plain attribute string: single quotes around it. -/
def pyRepr (s : String) : String :=
  String.mk (Char.ofNat 39 :: s.data ++ [Char.ofNat 39])

/-- Python `str` of one `(key, value)` tuple. -/
def pyPairStr (k v : String) : String :=
  "(" ++ pyRepr k ++ ", " ++ pyRepr v ++ ")"

/-- Python `str` of a list of tuples, without the surrounding brackets. -/
def pyItemsStr : List (String × String) → String
  | [] => ""
  | [(k, v)] => pyPairStr k v
  | (k, v) :: q :: rest => pyPairStr k v ++ ", " ++ pyItemsStr (q :: rest)

/-- Python `str(sorted(d.items()))`. -/
def pySortedItems (items : List (String × String)) : String :=
  "[" ++ pyItemsStr (sortPairs items) ++ "]"

/-- Dict lookup with the empty-string default, `d.get(key, "")`. -/
def getDefault : List (String × String) → String → String
  | [], _ => ""
  | (k1, v) :: rest, k => if k1 = k then v else getDefault rest k

/-- `USBHardwareBinding.create_hardware_fingerprint` (usb_hardware_binding.py
lines 115-143): None without identifiers; otherwise only the five
wipe-surviving attributes (product id, vendor id, serial number,
manufacturer, capacity) are kept — location id, BSD name and the device
name are deliberately left out — and the sha256 hexdigest of the sorted
item string is returned together with the persistent subset. -/
def create_hardware_fingerprint (sha256 : String → String)
    (hardwareIds : List (String × String)) :
    Option (String × List (String × String)) :=
  if hardwareIds.isEmpty then none
  else
    let persistent : List (String × String) :=
      [("product_id", getDefault hardwareIds "product_id"),
       ("vendor_id", getDefault hardwareIds "vendor_id"),
       ("serial_number", getDefault hardwareIds "serial_number"),
       ("manufacturer", getDefault hardwareIds "manufacturer"),
       ("capacity", getDefault hardwareIds "capacity")]
    some (sha256 (pySortedItems persistent), persistent)

/-- The fields `USBPackSSHKeyGen.create_current_usb_fingerprint` scrapes
from `diskutil info` output (each present only when its line occurs). -/
structure DiskutilInfo where
  volumeUuid : Option String
  deviceName : Option String
  totalSize : Option String
  filesystem : Option String

/-- `USBPackSSHKeyGen.create_current_usb_fingerprint`
(usb_pack_ssh_keygen.py lines 253-283), success path: the dict holds the
VOLUME UUID, the device/media name, the total size, the filesystem
personality and the MOUNT POINT, and the sha256 hexdigest of the sorted
item string is the fingerprint. -/
def create_current_usb_fingerprint (sha256 : String → String)
    (info : DiskutilInfo) (mountPoint : String) : String :=
  let usbInfo : List (String × String) :=
    (match info.volumeUuid with
     | some u => [("volume_uuid", u)]
     | none => []) ++
    (match info.deviceName with
     | some d => [("device_name", d)]
     | none => []) ++
    (match info.totalSize with
     | some t => [("total_size", t)]
     | none => []) ++
    (match info.filesystem with
     | some f => [("filesystem", f)]
     | none => []) ++
    [("mount_point", mountPoint)]
  sha256 (pySortedItems usbInfo)

/-- Concrete sha256 stand-in for evaluating the fingerprint layer. -/
def cSha : String → String := fun s => "S" ++ s

/-- The concrete sha256 stand-in for fingerprints is injective. -/
theorem cSha_inj : Function.Injective cSha := by
  intro a b h
  have h2 : ("S" ++ a).data = ("S" ++ b).data := congrArg String.data h
  simp [String.data_append] at h2
  cases a; cases b; simp_all

/-- The same physical stick as `diskutil` reports it before a reformat. -/
def infoBeforeReformat : DiskutilInfo :=
  ⟨some "AAAA-0001", some "SanDisk Ultra", some "16.0 GB", some "FAT32"⟩

/-- The same stick after a full reformat: the filesystem volume UUID is
regenerated, every hardware property is unchanged. -/
def infoAfterReformat : DiskutilInfo :=
  ⟨some "BBBB-0002", some "SanDisk Ultra", some "16.0 GB", some "FAT32"⟩

/-- C5 counterexample: `create_current_usb_fingerprint` — one of the two
fingerprint functions the claim covers — hashes the filesystem volume
UUID (and the mount point), so the same physical device fingerprinted
before and after a full reformat yields two DIFFERENT fingerprints,
contradicting the claimed reformat stability. -/
theorem C5_counterexample :
    infoBeforeReformat.deviceName = infoAfterReformat.deviceName ∧
    infoBeforeReformat.totalSize = infoAfterReformat.totalSize ∧
    infoBeforeReformat.filesystem = infoAfterReformat.filesystem ∧
    create_current_usb_fingerprint cSha infoBeforeReformat "/Volumes/SILVER" ≠
      create_current_usb_fingerprint cSha infoAfterReformat "/Volumes/SILVER" := by
  refine ⟨rfl, rfl, rfl, ?_⟩
  decide

/-- An attribute dict for a device as `extract_hardware_identifiers`
returns it: a presented name plus the five persistent attributes. -/
def mkIds (deviceName capacity manufacturer productId serial vendorId : String) :
    List (String × String) :=
  [("device_name", deviceName), ("product_id", productId),
   ("vendor_id", vendorId), ("serial_number", serial),
   ("manufacturer", manufacturer), ("capacity", capacity)]

/-- C5 amended, part 2 core: the sorted-item encoding of the persistent
subset determines the serial number when the other four attributes
agree. -/
theorem pySortedItems_serial_cancel (c m p v : String) {s1 s2 : String}
    (h : pySortedItems [("product_id", p), ("vendor_id", v),
          ("serial_number", s1), ("manufacturer", m), ("capacity", c)] =
         pySortedItems [("product_id", p), ("vendor_id", v),
          ("serial_number", s2), ("manufacturer", m), ("capacity", c)]) :
    s1 = s2 := by
  have hd := congrArg String.data h
  simp only [pySortedItems, sortPairs, insertPair, charListLe, pyItemsStr,
    pyPairStr, pyRepr, String.data_append, String.mk, List.append_assoc,
    List.cons_append, List.nil_append, List.foldr] at hd
  simp at hd
  cases s1; cases s2; simp_all

/-- C5 amended: `USBHardwareBinding.create_hardware_fingerprint` does
satisfy the claim — (1) it depends only on the five wipe-surviving
attributes, so any two attribute dicts agreeing on product id, vendor id,
serial number, manufacturer and capacity (whatever their volume name,
location id or BSD name) fingerprint identically, and (2) two devices
differing in serial number — even presenting an identical volume name —
fingerprint differently (digest collision-freeness modelled as
injectivity).  The claim fails only for the other cited function,
`create_current_usb_fingerprint`, per the counterexample. -/
theorem C5_amended (sha256 : String → String)
    (hinj : Function.Injective sha256) :
    (∀ ids1 ids2 : List (String × String), ids1.isEmpty = false →
      ids2.isEmpty = false →
      getDefault ids1 "product_id" = getDefault ids2 "product_id" →
      getDefault ids1 "vendor_id" = getDefault ids2 "vendor_id" →
      getDefault ids1 "serial_number" = getDefault ids2 "serial_number" →
      getDefault ids1 "manufacturer" = getDefault ids2 "manufacturer" →
      getDefault ids1 "capacity" = getDefault ids2 "capacity" →
      create_hardware_fingerprint sha256 ids1 =
        create_hardware_fingerprint sha256 ids2) ∧
    (∀ dn c m p v s1 s2 : String, s1 ≠ s2 →
      create_hardware_fingerprint sha256 (mkIds dn c m p s1 v) ≠
        create_hardware_fingerprint sha256 (mkIds dn c m p s2 v)) := by
  constructor
  · intro ids1 ids2 h1 h2 hp hv hs hm hc
    simp only [create_hardware_fingerprint, h1, h2, Bool.false_eq_true,
      if_false, hp, hv, hs, hm, hc]
  · intro dn c m p v s1 s2 hne heq
    apply hne
    have hfp : sha256 (pySortedItems [("product_id", p), ("vendor_id", v),
          ("serial_number", s1), ("manufacturer", m), ("capacity", c)]) =
        sha256 (pySortedItems [("product_id", p), ("vendor_id", v),
          ("serial_number", s2), ("manufacturer", m), ("capacity", c)]) := by
      have h1 := Option.some.inj heq
      exact congrArg Prod.fst h1
    exact pySortedItems_serial_cancel c m p v (hinj hfp)

/-- C5 amended, witness: the persistent fingerprint agrees across a wipe
(location id present before, absent after; volume name changed) and
separates two sticks that differ only in serial number. -/
theorem C5_amended_witness :
    create_hardware_fingerprint cSha
        [("device_name", "SILVER"), ("product_id", "0x5583"),
         ("vendor_id", "0x0781"), ("serial_number", "4C5300012345"),
         ("manufacturer", "SanDisk"), ("capacity", "16 GB"),
         ("location_id", "0x02100000")] =
      create_hardware_fingerprint cSha
        [("device_name", "NO NAME"), ("product_id", "0x5583"),
         ("vendor_id", "0x0781"), ("serial_number", "4C5300012345"),
         ("manufacturer", "SanDisk"), ("capacity", "16 GB")] ∧
    create_hardware_fingerprint cSha
        (mkIds "SILVER" "16 GB" "SanDisk" "0x5583" "4C5300012345" "0x0781") ≠
      create_hardware_fingerprint cSha
        (mkIds "SILVER" "16 GB" "SanDisk" "0x5583" "4C5300099999" "0x0781") := by
  constructor
  · exact (C5_amended cSha cSha_inj).1 _ _ (by decide) (by decide)
      (by decide) (by decide) (by decide) (by decide) (by decide)
  · exact (C5_amended cSha cSha_inj).2 "SILVER" "16 GB" "SanDisk" "0x5583"
      "0x0781" "4C5300012345" "4C5300099999" (by decide)

/-! ## Dual-Factor Unlock Protocol (src/dual_nfc_unlock_system.py)

Byte strings are lists of byte values.  Fernet authenticated encryption is
an external primitive; it appears as `FernetModel`, whose soundness fields
state the standard idealisation — decryption recovers the plaintext under
the encryption key and fails under every other key (each token
authenticates exactly one key).  The PBKDF2-based key derivations of
`create_stage1_key` / `create_stage2_key` and the sha256 over the decrypted
analysis are the parameters of `DualPrims`. -/

/-- Idealised Fernet authenticated encryption. -/
structure FernetModel where
  encrypt : List Nat → List Nat → List Nat
  keyOf : List Nat → Option (List Nat)
  decrypt : List Nat → List Nat → Option (List Nat)
  keyOf_encrypt : ∀ k m, keyOf (encrypt k m) = some k
  decrypt_encrypt : ∀ k m, decrypt k (encrypt k m) = some m
  decrypt_wrong : ∀ k c, keyOf c ≠ some k → decrypt k c = none

/-- A successful decryption pins down the token key. -/
theorem FernetModel.keyOf_of_decrypt (F : FernetModel) {k c m : List Nat}
    (h : F.decrypt k c = some m) : F.keyOf c = some k := by
  by_contra hn
  rw [F.decrypt_wrong k c hn] at h
  cases h

/-- The key-derivation primitives of the dual-unlock protocol:
`kdf1`/`kdf2` are the base64-wrapped PBKDF2 derivations with the stage-1
and stage-2 salts, `shaOfAnalysis` the sha256 hexdigest over the string
form of the decrypted audio analysis. -/
structure DualPrims where
  kdf1 : List Nat → List Nat
  kdf2 : List Nat → List Nat
  shaOfAnalysis : List Nat → List Nat

/-- `DualNFCUnlock.create_stage1_key` (dual_nfc_unlock_system.py lines
24-34). -/
def create_stage1_key (P : DualPrims) (nfcHash : List Nat) : List Nat :=
  P.kdf1 nfcHash

/-- `DualNFCUnlock.create_stage2_key` (lines 36-49): the NFC hash and the
audio hash are concatenated before derivation. -/
def create_stage2_key (P : DualPrims) (nfcHash audioHash : List Nat) :
    List Nat :=
  P.kdf2 (nfcHash ++ audioHash)

/-- The stage-1 container written by `encrypt_audio_data`. -/
structure Stage1Container where
  encryptedAudio : List Nat
  encryptedAnalysis : List Nat
  stage1Locked : Bool

/-- The stage-2 container written by `encrypt_password_vault`. -/
structure Stage2Container where
  encryptedVault : List Nat
  stage2Locked : Bool

/-- `DualNFCUnlock.encrypt_audio_data` (lines 51-84): audio bytes and
analysis metadata are both encrypted under the stage-1 key of the
enrollment scan. -/
def encrypt_audio_data (F : FernetModel) (P : DualPrims)
    (audioBytes : List Nat) (nfcHash : List Nat) (analysis : List Nat) :
    Stage1Container :=
  ⟨F.encrypt (create_stage1_key P nfcHash) audioBytes,
   F.encrypt (create_stage1_key P nfcHash) analysis, true⟩

/-- `DualNFCUnlock.encrypt_password_vault` (lines 86-107). -/
def encrypt_password_vault (F : FernetModel) (P : DualPrims)
    (passwordData nfcHash audioHash : List Nat) : Stage2Container :=
  ⟨F.encrypt (create_stage2_key P nfcHash audioHash) passwordData, true⟩

/-- `DualNFCUnlock.stage1_unlock` (lines 109-145): both blobs must decrypt
under the key derived from the presented scan digest; a decryption failure
is caught and reported as failure. -/
def stage1_unlock (F : FernetModel) (P : DualPrims) (cont : Stage1Container)
    (nfcHash : List Nat) : Option (List Nat × List Nat) :=
  if cont.stage1Locked = false then none
  else
    match F.decrypt (create_stage1_key P nfcHash) cont.encryptedAudio,
          F.decrypt (create_stage1_key P nfcHash) cont.encryptedAnalysis with
    | some audioBytes, some analysis => some (audioBytes, analysis)
    | _, _ => none

/-- `DualNFCUnlock.stage2_unlock` (lines 147-177): the audio hash is
recomputed from the decrypted analysis and combined with the second scan
digest. -/
def stage2_unlock (F : FernetModel) (P : DualPrims) (cont : Stage2Container)
    (nfcHash analysis : List Nat) : Option (List Nat) :=
  if cont.stage2Locked = false then none
  else
    F.decrypt (create_stage2_key P nfcHash (P.shaOfAnalysis analysis))
      cont.encryptedVault

/-- `DualNFCUnlock.unlock_dual_system` (lines 275-332): stage 1 with the
first scan digest, then the explicit same-tag comparison of the two scan
digests, then stage 2 with the second scan digest and the decrypted
analysis. -/
def unlock_dual_system (F : FernetModel) (P : DualPrims)
    (c1 : Stage1Container) (c2 : Stage2Container)
    (nfcHash1 nfcHash2 : List Nat) : Option (List Nat) :=
  match stage1_unlock F P c1 nfcHash1 with
  | none => none
  | some (_, analysis) =>
      if nfcHash1 = nfcHash2 then stage2_unlock F P c2 nfcHash2 analysis
      else none

/-- C6: the protocol never requires the two scan digests of a session to
be distinct.  For an enrolled system, whenever scan #1 passes the stage-1
(ambient-unlock) verification and scan #2 passes the stage-2 (assembly)
verification — with no assumption about whether the two digests are equal
— the full unlock reaches the success state and returns the vault.  (In
particular presenting the same tag twice succeeds; the source even checks
the two digests for equality, a check the hypotheses always satisfy since
each stage only passes with the enrolled digest.) -/
theorem C6_two_scans (F : FernetModel) (P : DualPrims)
    (hinj1 : Function.Injective P.kdf1) (hinj2 : Function.Injective P.kdf2)
    (enrolled audioBytes analysis passwordData nfc1 nfc2 ab an pwd : List Nat)
    (h1 : stage1_unlock F P (encrypt_audio_data F P audioBytes enrolled analysis)
            nfc1 = some (ab, an))
    (h2 : stage2_unlock F P
            (encrypt_password_vault F P passwordData enrolled
              (P.shaOfAnalysis analysis)) nfc2 an = some pwd) :
    unlock_dual_system F P
      (encrypt_audio_data F P audioBytes enrolled analysis)
      (encrypt_password_vault F P passwordData enrolled
        (P.shaOfAnalysis analysis)) nfc1 nfc2 = some pwd := by
  rcases hda : F.decrypt (create_stage1_key P nfc1)
      (F.encrypt (create_stage1_key P enrolled) audioBytes) with _ | x
  · simp [stage1_unlock, encrypt_audio_data, hda] at h1
  rcases hdn : F.decrypt (create_stage1_key P nfc1)
      (F.encrypt (create_stage1_key P enrolled) analysis) with _ | y
  · simp [stage1_unlock, encrypt_audio_data, hda, hdn] at h1
  have hkey1 : create_stage1_key P nfc1 = create_stage1_key P enrolled := by
    have ha := F.keyOf_of_decrypt hda
    rw [F.keyOf_encrypt] at ha
    exact (Option.some.inj ha).symm
  have hnfc1 : nfc1 = enrolled := hinj1 hkey1
  have han : y = analysis := by
    rw [hkey1, F.decrypt_encrypt] at hdn
    exact (Option.some.inj hdn).symm
  have h1p : x = ab ∧ y = an := by
    simpa [stage1_unlock, encrypt_audio_data, hda, hdn] using h1
  have h1v : an = analysis := by
    rw [← h1p.2]
    exact han
  rcases hdv : F.decrypt
      (create_stage2_key P nfc2 (P.shaOfAnalysis an))
      (F.encrypt (create_stage2_key P enrolled (P.shaOfAnalysis analysis))
        passwordData) with _ | z
  · simp [stage2_unlock, encrypt_password_vault, hdv] at h2
  have hkey2 : create_stage2_key P nfc2 (P.shaOfAnalysis an) =
      create_stage2_key P enrolled (P.shaOfAnalysis analysis) := by
    have hv := F.keyOf_of_decrypt hdv
    rw [F.keyOf_encrypt] at hv
    exact (Option.some.inj hv).symm
  have hnfc2 : nfc2 = enrolled := by
    have hcat := hinj2 hkey2
    rw [h1v] at hcat
    exact (List.append_left_inj _).mp hcat
  have hkeyEq : nfc1 = nfc2 := by rw [hnfc1, hnfc2]
  simp only [unlock_dual_system, stage1_unlock, encrypt_audio_data, hda, hdn]
  simp only [Bool.true_eq_false, if_false]
  rw [if_pos hkeyEq, h1p.2]
  exact h2

/-- Concrete Fernet: the token records the key length and the key. -/
def fEncrypt (k m : List Nat) : List Nat := k.length :: (k ++ m)

/-- Concrete Fernet token key recovery. -/
def fKeyOf : List Nat → Option (List Nat)
  | [] => none
  | n :: rest => if n ≤ rest.length then some (rest.take n) else none

/-- Concrete Fernet decryption: succeeds only under the recorded key. -/
def fDecrypt (k : List Nat) : List Nat → Option (List Nat)
  | [] => none
  | n :: rest =>
      if (if n ≤ rest.length then some (rest.take n) else none) = some k then
        some (rest.drop n)
      else none

/-- The concrete Fernet satisfies the idealisation. -/
def cFernet : FernetModel where
  encrypt := fEncrypt
  keyOf := fKeyOf
  decrypt := fDecrypt
  keyOf_encrypt := by
    intro k m
    simp [fEncrypt, fKeyOf, List.take_left]
  decrypt_encrypt := by
    intro k m
    simp [fEncrypt, fDecrypt, List.take_left, List.drop_left]
  decrypt_wrong := by
    intro k c h
    cases c with
    | nil => rfl
    | cons n rest =>
        simp only [fKeyOf] at h
        simp [fDecrypt, h]

/-- Concrete key-derivation stand-ins (distinct injective taggings). -/
def cDualPrims : DualPrims :=
  ⟨fun l => 1 :: l, fun l => 2 :: l, fun l => 3 :: l⟩

/-- C6 witness: an enrolled system unlocked by presenting the enrolled tag
twice — both hypotheses discharged on concrete data — reaches success. -/
theorem C6_two_scans_witness :
    unlock_dual_system cFernet cDualPrims
      (encrypt_audio_data cFernet cDualPrims [1, 2] [7] [5])
      (encrypt_password_vault cFernet cDualPrims [9] [7]
        (cDualPrims.shaOfAnalysis [5])) [7] [7] = some [9] := by
  refine C6_two_scans cFernet cDualPrims ?_ ?_ [7] [1, 2] [5] [9] [7] [7]
    [1, 2] [5] [9] (by decide) (by decide)
  · intro a b h
    simpa [cDualPrims] using h
  · intro a b h
    simpa [cDualPrims] using h

/-! ## Tag Scanner Abstraction (src/invisible_nfc_scanner.py and
src/secure_unified_auth.py)

A scan interacts with the reader through stdin.  The environment of one
scan call is the event the terminal delivers: a completed line (for the
timed variant, together with the second at which its terminator arrives),
an operator interrupt, or no line at all.  `blocked` marks a call that
never returns.  `printed` collects every line the function emits to the
terminal or the log; neither function writes any file. -/

/-- Outcome of a scan call as seen by the caller. -/
inductive ScanResult where
  | success (digest : String)
  | failure
  | blocked
deriving DecidableEq

/-- What one scan call returns and everything it emits. -/
structure ScanOutcome where
  result : ScanResult
  printed : List String
deriving DecidableEq

/-- The stdin events an untimed blocking read can see. -/
inductive StdinEvent where
  | line (cs : String)
  | interrupt
  | never

/-- The stdin events of the timed variant: the line arrives at second `t`,
or never. -/
inductive TimedStdinEvent where
  | lineAt (t : Nat) (cs : String)
  | never

/-- Python `str.strip()` on the read line. -/
def stripWs (s : String) : String :=
  String.mk
    (((s.data.dropWhile isWsChar).reverse.dropWhile isWsChar).reverse)

/-- `InvisibleNFCScanner.invisible_scan_simple`
(invisible_nfc_scanner.py lines 31-76): echo is disabled, the line is read
by a plain blocking `sys.stdin.readline()` with NO timeout, the stripped
tag data is immediately hashed, the buffer is overwritten, and only the
digest is returned; a keyboard interrupt returns None.  When no line ever
arrives the call never returns. -/
def invisible_scan_simple (sha256hex : String → String) (ev : StdinEvent) :
    ScanOutcome :=
  let headers := ["🔒 Place NFC tag on reader...",
                  "   ⚡ Invisible mode - tag data will NOT appear on screen",
                  "   Press Enter after tag auto-types"]
  match ev with
  | StdinEvent.never => ⟨ScanResult.blocked, headers⟩
  | StdinEvent.interrupt =>
      ⟨ScanResult.failure, headers ++ ["❌ Scan cancelled"]⟩
  | StdinEvent.line cs =>
      let tagData := stripWs cs
      if tagData = "" then
        ⟨ScanResult.failure, headers ++ ["❌ No tag data received"]⟩
      else
        ⟨ScanResult.success (sha256hex tagData),
         headers ++ ["✅ Tag scanned invisibly",
                     "   Authentication key derived: [HIDDEN]",
                     "   Raw UID: [NEVER STORED - Zero Knowledge]"]⟩

/-- `invisible_nfc_scan` (secure_unified_auth.py lines 142-223): after the
scanner-presence check, characters are read in raw mode until the line
terminator while `signal.alarm(30)` — a hard-coded 30-second alarm — is
armed; when the alarm fires first the raised TimeoutError is caught and
None is returned; an empty line and a missing scanner also return None;
otherwise the line is hashed at once, the buffer overwritten, and the
digest returned. -/
def invisible_nfc_scan (sha256hex : String → String)
    (scannerPresent : Bool) (ev : TimedStdinEvent) : ScanOutcome :=
  if scannerPresent = false then
    ⟨ScanResult.failure,
     ["❌ Barcode scanner not detected",
      "   Please ensure scanner is connected and try again"]⟩
  else
    let headers := ["🏷️  NFC AUTHENTICATION",
                    "🔒 Place NFC tag on reader...",
                    "   📱 Barcode scanner detected and ready",
                    "   ⚡ Invisible mode - tag data will NOT appear on screen",
                    "   🎯 Scan NFC tag now..."]
    match ev with
    | TimedStdinEvent.never =>
        ⟨ScanResult.failure,
         headers ++ ["❌ NFC scan timeout - please try again"]⟩
    | TimedStdinEvent.lineAt t cs =>
        if 30 ≤ t then
          ⟨ScanResult.failure,
           headers ++ ["❌ NFC scan timeout - please try again"]⟩
        else if cs = "" then
          ⟨ScanResult.failure, headers ++ ["❌ No tag data received"]⟩
        else
          ⟨ScanResult.success (sha256hex cs),
           headers ++ ["✅ NFC tag scanned successfully (invisible mode)"]⟩

/-- Concrete sha256 hexdigest stand-in for the scanner layer. -/
def cShaHex : String → String := fun s => "H" ++ s

/-- C7 counterexample: `InvisibleNFCScanner.invisible_scan_simple` — a
tag-scan operation the claim covers — has no timeout at all: when no input
line ever arrives the call blocks indefinitely instead of returning a
typed failure. -/
theorem C7_counterexample :
    (invisible_scan_simple cShaHex StdinEvent.never).result =
      ScanResult.blocked ∧
    ScanResult.blocked ≠ ScanResult.failure := by
  decide

/-- C7 amended: only the `secure_unified_auth.invisible_nfc_scan` variant
is guarded by a timeout, and that timeout is the hard-coded constant 30
seconds, not configurable: that call never blocks, and a line completing
at or after second 30 yields the typed failure None; by contrast
`InvisibleNFCScanner.invisible_scan_simple` has no timeout and blocks
indefinitely when no line arrives. -/
theorem C7_amended (h : String → String) :
    (∀ (sp : Bool) (ev : TimedStdinEvent),
      (invisible_nfc_scan h sp ev).result ≠ ScanResult.blocked) ∧
    (∀ (sp : Bool) (t : Nat) (cs : String), 30 ≤ t →
      (invisible_nfc_scan h sp (TimedStdinEvent.lineAt t cs)).result =
        ScanResult.failure) ∧
    (invisible_scan_simple h StdinEvent.never).result =
      ScanResult.blocked := by
  refine ⟨?_, ?_, rfl⟩
  · intro sp ev
    cases sp with
    | false => simp [invisible_nfc_scan]
    | true =>
        cases ev with
        | never => simp [invisible_nfc_scan]
        | lineAt t cs =>
            by_cases ht : 30 ≤ t
            · simp [invisible_nfc_scan, ht]
            · by_cases hcs : cs = "" <;>
                simp [invisible_nfc_scan, ht, hcs]
  · intro sp t cs ht
    cases sp with
    | false => simp [invisible_nfc_scan]
    | true => simp [invisible_nfc_scan, ht]

/-- C7 amended, witness: a line completing at second 45 is answered with
the typed failure. -/
theorem C7_amended_witness :
    (invisible_nfc_scan cShaHex true (TimedStdinEvent.lineAt 45 "x")).result =
      ScanResult.failure :=
  (C7_amended cShaHex).2.1 true 45 "x" (by norm_num)

/-- C9: zero knowledge of both scan functions.  The value returned to the
caller is exactly the SHA-256 digest of the (stripped) raw line, and every
emitted terminal/log line is independent of the raw tag value — two scans
of different tags emit identical output — so no artifact of a scan carries
the pre-digest value (neither function writes any file). -/
theorem C9_zero_knowledge (h : String → String) (cs1 cs2 : String)
    (t1 t2 : Nat) (h1 : stripWs cs1 ≠ "") (h2 : stripWs cs2 ≠ "")
    (h3 : cs1 ≠ "") (h4 : cs2 ≠ "") (ht1 : t1 < 30) (ht2 : t2 < 30) :
    (invisible_scan_simple h (StdinEvent.line cs1)).printed =
      (invisible_scan_simple h (StdinEvent.line cs2)).printed ∧
    (invisible_scan_simple h (StdinEvent.line cs1)).result =
      ScanResult.success (h (stripWs cs1)) ∧
    (invisible_nfc_scan h true (TimedStdinEvent.lineAt t1 cs1)).printed =
      (invisible_nfc_scan h true (TimedStdinEvent.lineAt t2 cs2)).printed ∧
    (invisible_nfc_scan h true (TimedStdinEvent.lineAt t1 cs1)).result =
      ScanResult.success (h cs1) := by
  have hn1 : ¬ 30 ≤ t1 := by omega
  have hn2 : ¬ 30 ≤ t2 := by omega
  refine ⟨?_, ?_, ?_, ?_⟩
  · simp [invisible_scan_simple, h1, h2]
  · simp [invisible_scan_simple, h1]
  · simp [invisible_nfc_scan, hn1, hn2, h3, h4]
  · simp [invisible_nfc_scan, hn1, h3]

/-- C9 witness: two different tag values scanned through both functions,
hypotheses discharged on concrete input. -/
theorem C9_zero_knowledge_witness :
    (invisible_scan_simple cShaHex (StdinEvent.line "TAG-A")).printed =
      (invisible_scan_simple cShaHex (StdinEvent.line "TAG-B")).printed ∧
    (invisible_scan_simple cShaHex (StdinEvent.line "TAG-A")).result =
      ScanResult.success (cShaHex (stripWs "TAG-A")) ∧
    (invisible_nfc_scan cShaHex true (TimedStdinEvent.lineAt 1 "TAG-A")).printed =
      (invisible_nfc_scan cShaHex true (TimedStdinEvent.lineAt 2 "TAG-B")).printed ∧
    (invisible_nfc_scan cShaHex true (TimedStdinEvent.lineAt 1 "TAG-A")).result =
      ScanResult.success (cShaHex "TAG-A") :=
  C9_zero_knowledge cShaHex "TAG-A" "TAG-B" 1 2 (by decide) (by decide)
    (by decide) (by decide) (by norm_num) (by norm_num)

/-! ## Entropy Collector (src/nesdr_entropy_collector.py) -/

/-- How `NESDREntropyCollector.__init__` / `_setup_sdr` terminates. -/
inductive SetupResult where
  | ok
  | exited (code : Nat)
deriving DecidableEq

/-- `NESDREntropyCollector._setup_sdr` (nesdr_entropy_collector.py lines
35-46): when opening the RTL-SDR raises — the receiver is absent — the
handler prints the failure and calls `sys.exit(1)`, terminating the
process. -/
def setup_sdr (sdrAvailable : Bool) : SetupResult :=
  if sdrAvailable then SetupResult.ok else SetupResult.exited 1

/-- `NESDREntropyCollector._collect_rf_noise` (lines 48-87): on a
successful capture the conditioned sample bytes are hashed by sha512
together with 32 bytes of system randomness; when the capture raises, the
handler logs the degradation and returns `os.urandom(64)` instead — the
caller always receives a value, no exception escapes.  (`capture` is the
conditioned byte buffer of the radio read, or none when the read fails;
`urand32`/`urand64` are the system-randomness draws of the two paths.) -/
def collect_rf_noise (sha512 : List Nat → List Nat)
    (capture : Option (List Nat)) (urand32 urand64 : List Nat) : List Nat :=
  match capture with
  | some rawBytes => sha512 (rawBytes ++ urand32)
  | none => urand64

/-- C8 counterexample: with the receiver absent, initialisation does not
fall back — the collector terminates the whole process with exit code 1,
contradicting the claim that absence never terminates the process. -/
theorem C8_counterexample :
    setup_sdr false = SetupResult.exited 1 ∧
    setup_sdr false ≠ SetupResult.ok := by
  decide

/-- C8 amended: a FAILED CAPTURE is tolerated — the collector falls back
to the system random source and returns it to the caller, no exception
escaping, and a successful capture returns the sha512 digest — but an
ABSENT RECEIVER at initialisation terminates the process with
`sys.exit(1)`. -/
theorem C8_amended (sha512 : List Nat → List Nat)
    (urand32 urand64 rawBytes : List Nat) :
    collect_rf_noise sha512 none urand32 urand64 = urand64 ∧
    collect_rf_noise sha512 (some rawBytes) urand32 urand64 =
      sha512 (rawBytes ++ urand32) ∧
    setup_sdr true = SetupResult.ok ∧
    setup_sdr false = SetupResult.exited 1 :=
  ⟨rfl, rfl, rfl, rfl⟩

/-! ## Key Derivation Engine (src/usb_pack_ssh_keygen.py lines 285-363 and
src/secure_unified_auth.py lines 252-280) -/

/-- The PBKDF2-HMAC-SHA256 derivation with the fixed
SSH_KEY_DERIVATION_SALT and 100000 iterations, as a parameter. -/
structure SshPrims where
  pbkdf2Ssh : String → List Nat

/-- `int.from_bytes(bs, "big")`. -/
def bytesToNat (bs : List Nat) : Nat := bs.foldl (fun a b => a * 256 + b) 0

/-- One run of `USBPackSSHKeyGen.generate_ssh_keys`: the derived 32-byte
seed, the value fed to `np.random.seed`, and the generated RSA key pair
(abstracted to its serialised forms). -/
structure SshKeyRun where
  keyMaterial : List Nat
  npSeed : Nat
  keyPair : Nat × Nat
deriving DecidableEq

/-- `USBPackSSHKeyGen.generate_ssh_keys` (usb_pack_ssh_keygen.py lines
285-363): the master seed concatenates the four factors, PBKDF2 derives
`key_material`, `np.random.seed` is called on its first 8 bytes — but
`rsa.generate_private_key` of the cryptography package draws from the OS
CSPRNG (`osRandom`, modelled through `rsaGen`) and is unaffected by the
numpy seed, so the key pair does not depend on `keyMaterial`. -/
def generate_ssh_keys (P : SshPrims) (rsaGen : Nat → Nat × Nat)
    (nfcHash chaosValue audioFingerprint usbFingerprint : String)
    (osRandom : Nat) : SshKeyRun :=
  let masterSeed := nfcHash ++ chaosValue ++ audioFingerprint ++ usbFingerprint
  let keyMaterial := P.pbkdf2Ssh masterSeed
  { keyMaterial := keyMaterial
    npSeed := bytesToNat (keyMaterial.take 8)
    keyPair := rsaGen osRandom }

/-- `generate_secure_ssh_keys` (secure_unified_auth.py lines 252-280): the
RSA pair is generated directly from the OS CSPRNG; the passphrase only
encrypts the private-key serialisation and has no influence on which pair
is generated. -/
def generate_secure_ssh_keys (rsaGen : Nat → Nat × Nat)
    (passphrase : String) (osRandom : Nat) : Nat × Nat :=
  rsaGen osRandom

/-- Concrete PBKDF2 stand-in. -/
def cSshPrims : SshPrims := ⟨fun s => s.data.map Char.toNat⟩

/-- Concrete RSA generator stand-in: the pair is a function of the drawn
OS randomness. -/
def cRsaGen : Nat → Nat × Nat := fun r => (r, r + 1)

/-- C1: two runs of the key derivation with the identical four factors but
fresh OS-CSPRNG draws produce the identical 32-byte PBKDF2 seed (and numpy
seed), yet DIFFERENT RSA key pairs — in both cited functions — because
`rsa.generate_private_key` ignores the seeded numpy state.  This
contradicts the claimed byte-identical DerivedKeyMaterial and exposes the
code bug at the concrete failing input. -/
theorem C1_keypair_not_deterministic :
    (generate_ssh_keys cSshPrims cRsaGen "n" "c" "a" "u" 0).keyMaterial =
      (generate_ssh_keys cSshPrims cRsaGen "n" "c" "a" "u" 1).keyMaterial ∧
    (generate_ssh_keys cSshPrims cRsaGen "n" "c" "a" "u" 0).npSeed =
      (generate_ssh_keys cSshPrims cRsaGen "n" "c" "a" "u" 1).npSeed ∧
    (generate_ssh_keys cSshPrims cRsaGen "n" "c" "a" "u" 0).keyPair ≠
      (generate_ssh_keys cSshPrims cRsaGen "n" "c" "a" "u" 1).keyPair ∧
    generate_secure_ssh_keys cRsaGen "p" 0 ≠
      generate_secure_ssh_keys cRsaGen "p" 1 := by
  refine ⟨rfl, rfl, by decide, by decide⟩

end NfcGithub
